import Mathlib

/-!
Shallow embedding of the sadist-map GeoJSON service (src/index.js).

The repository is a single Express application exposing three endpoints:
rule creation (POST /map/rule/:rule), bulk feature upload
(POST /map/upload/:rule) and proximity query (GET /map/features/:featureclass),
plus an error-handling middleware. The document store (MongoDB) is modelled
as explicit state: the rule store as a map from rule id to rule, and each
feature collection as a list of documents keyed by their "_id" field. The
external spatial-query and geometry-simplification capabilities are
parameters of the query pipeline. Floating-point arithmetic is idealised
as exact real arithmetic, except that the products fed to Math.atan2 in
the coordinate normalizer carry an explicit IEEE sign bit, because the
ECMAScript atan2 distinguishes the two zeros (atan2(-0, x) = -pi for
x < 0) and the handler produces a negative zero on the meridian
lng = 0 whenever cos of the latitude is negative.
-/

namespace SadistMap

/-- Scalar JSON values as they appear in feature properties and stored
documents. Non-scalar values (objects and arrays, in particular GeoJSON
geometries) are never inspected by the program - a geometry is copied
verbatim from the feature onto the stored document and handed opaquely to
the external store and simplifier - so they are carried as opaque tagged
blobs. -/
inductive JVal where
  | null : JVal
  | bool : Bool → JVal
  | num : ℚ → JVal
  | str : String → JVal
  | blob : String → JVal
deriving DecidableEq, Repr

/-- JavaScript falsiness of a JSON value: null, false, 0 and the empty
string are falsy; every object or array is truthy. -/
def JVal.falsy : JVal → Bool
  | .null => true
  | .bool b => !b
  | .num q => q == 0
  | .str s => s == ""
  | .blob _ => false

/-- Falsiness of an optional value: an absent value (undefined) is falsy. -/
def falsyOpt : Option JVal → Bool
  | none => true
  | some v => v.falsy

/-- A stored document: an association list from field names to values, in
insertion order, with unique keys. A field holding `none` models a field
assigned the JavaScript value undefined. -/
abbrev Doc := List (String × Option JVal)

/-- Assign a field on a document, JavaScript-object style: an existing key
keeps its position and gets the new value, a new key is appended. -/
def setField : Doc → String → Option JVal → Doc
  | [], k, v => [(k, v)]
  | (k', v') :: rest, k, v =>
    if k' = k then (k, v) :: rest else (k', v') :: setField rest k v

/-- Read a field of a document; absent keys and undefined values are both
read as `none`. -/
def getField : Doc → String → Option JVal
  | [], _ => none
  | (k', v') :: rest, k => if k' = k then v' else getField rest k

/-- A GeoJSON feature as destructured by the upload endpoint: its `type`
tag, its optional `properties` object and its optional `geometry`. -/
structure Feature where
  type : String
  properties : Option (List (String × JVal))
  geometry : Option JVal
deriving DecidableEq, Repr

/-- Read `feature.properties?.[key]` (optional chaining: absent properties
object yields undefined). -/
def getProp (f : Feature) (key : String) : Option JVal :=
  f.properties.bind (fun ps => ps.lookup key)

/-- An upload rule as stored in the `geo_upload_rule` collection:
a feature class name and a mapping from target fields to source
properties, in insertion order (src/index.js lines 112-130). -/
structure Rule where
  featureclass : String
  mapping : List (String × String)
deriving DecidableEq, Repr

/-- The rule store: the `geo_upload_rule` collection keyed by rule id. -/
abbrev RuleStore := String → Option Rule

/-- The mapping loop of the upload endpoint (src/index.js lines 167-175):
for each (targetField, sourceField) pair of the mapping, read the source
property; a falsy value for the `_id` target aborts with an error, every
other target field is assigned the value verbatim. -/
def applyMapping (f : Feature) : List (String × String) → Doc → Except String Doc
  | [], d => .ok d
  | (targetField, sourceField) :: rest, d =>
    let val := getProp f sourceField
    if targetField = "_id" then
      if falsyOpt val then .error "Feature missing _id value from mapping"
      else applyMapping f rest (setField d "_id" val)
    else applyMapping f rest (setField d targetField val)

/-- The mapping engine for one feature (src/index.js lines 161-176):
reject non-Feature entries, run the mapping loop, then copy the geometry
onto the document unconditionally. -/
def mapFeature (mapping : List (String × String)) (f : Feature) : Except String Doc :=
  if f.type ≠ "Feature" then .error "All items must be GeoJSON Features"
  else (applyMapping f mapping []).map (fun d => setField d "geometry" f.geometry)

/-- Map every feature of the batch, stopping at the first failure
(the JavaScript `features.map` throws synchronously, before any write). -/
def mapFeatures (mapping : List (String × String)) : List Feature → Except String (List Doc)
  | [] => .ok []
  | f :: rest => do
    let d ← mapFeature mapping f
    let ds ← mapFeatures mapping rest
    .ok (d :: ds)

/-- Identity key of a mapped document. -/
def docId (d : Doc) : Option JVal := getField d "_id"

/-- MongoDB `$set` semantics on an existing document: each incoming field
is set, fields not mentioned are retained. -/
def mergeSet (existing incoming : Doc) : Doc :=
  incoming.foldl (fun d kv => setField d kv.1 kv.2) existing

/-- One `updateOne ... upsert` operation keyed by `_id`: replace-or-merge
the matching document, or insert the mapped document when no `_id`
matches. Returns the new collection and whether the operation upserted
a new document, respectively modified an existing one. -/
def upsertOne : List Doc → Doc → List Doc × Bool × Bool
  | [], m => ([m], true, false)
  | d :: rest, m =>
    if docId d = docId m then
      let merged := mergeSet d m
      (merged :: rest, false, decide (merged ≠ d))
    else
      let (rest', ins, mo) := upsertOne rest m
      (d :: rest', ins, mo)

/-- The unordered bulk write (src/index.js line 191): apply every upsert
operation and accumulate upserted and modified counts. -/
def bulkUpsert (coll : List Doc) (ops : List Doc) : List Doc × Nat × Nat :=
  ops.foldl
    (fun acc m =>
      let (c', ins, mo) := upsertOne acc.1 m
      (c', acc.2.1 + (if ins then 1 else 0), acc.2.2 + (if mo then 1 else 0)))
    (coll, 0, 0)

/-- An application error as thrown by the handlers: an optional HTTP
status (absent on plain `new Error(...)`) and a message. -/
structure AppError where
  status : Option Nat
  message : String
deriving DecidableEq, Repr

deriving instance DecidableEq for Except

/-- The JSON body produced by the error middleware. -/
structure ErrorBody where
  error : String
deriving DecidableEq, Repr

/-- The error-handling middleware (src/index.js lines 293-298): status
defaults to 500, body is `{ error: message }` with a generic fallback for
an empty message. -/
def errorResponse (e : AppError) : Nat × ErrorBody :=
  (e.status.getD 500, ⟨if e.message = "" then "Internal Server Error" else e.message⟩)

/-- Matches the JavaScript character class `\w` = `[A-Za-z0-9_]`. -/
def isWordChar (c : Char) : Bool := c.isAlphanum || c == '_'

/-- The test `/^[\w]+$/.test s`: nonempty and every character in `\w`. -/
def isWordString (s : String) : Bool := !s.isEmpty && s.toList.all isWordChar

/-- Response of the rule endpoint. -/
structure PutRuleResponse where
  inserted : Nat
  modified : Nat
deriving DecidableEq, Repr

/-- The rule-creation endpoint POST /map/rule/:rule (src/index.js lines
112-137). The request body fields are modelled as `Option`s: `none`
stands for an absent field, and for `mapping` also for a value that is
not an object. Validation happens before the single upsert into the rule
store; the upsert is keyed by the rule id and fully replaces any previous
rule under that id. -/
def putRule (store : RuleStore) (ruleId : String) (fc? : Option String)
    (mapping? : Option (List (String × String))) :
    Except AppError (RuleStore × PutRuleResponse) :=
  match fc? with
  | none => .error ⟨none, "featureclass is required"⟩
  | some fc =>
    if fc = "" then .error ⟨none, "featureclass is required"⟩
    else if !isWordString fc then .error ⟨none, "featureclass must be alphanumerical"⟩
    else
      match mapping? with
      | none => .error ⟨none, "mapping must be an object"⟩
      | some mapping =>
        if !mapping.any (fun kv => kv.1 == "_id") then
          .error ⟨none, "mapping must contain _id"⟩
        else
          let newRule : Rule := ⟨fc, mapping⟩
          let resp : PutRuleResponse :=
            match store ruleId with
            | none => ⟨1, 0⟩
            | some old => ⟨0, if old = newRule then 0 else 1⟩
          .ok (fun id => if id = ruleId then some newRule else store id, resp)

/-- The upload request body as destructured by the handler: the `type`
tag and the `features` field, `none` when it is not an array. -/
structure UploadBody where
  type : String
  features : Option (List Feature)
deriving DecidableEq, Repr

/-- Response of the upload endpoint. -/
structure UploadResponse where
  collection : String
  inserted : Nat
  modified : Nat
deriving DecidableEq, Repr

/-- The ingestion pipeline POST /map/upload/:rule (src/index.js lines
140-199): validate the body shape, look up the rule (404 when absent),
map every feature (the whole operation list is built before the bulk
write, so any mapping failure aborts before any document write), reject
an empty operation batch, then execute the unordered bulk upsert against
collection `geo_<featureclass>`. The database is returned alongside the
result: on every error path it is returned unchanged. The create-index
call issued before mapping touches no documents and is not modelled. -/
def ingest (rules : RuleStore) (db : String → List Doc) (ruleId : String)
    (body : UploadBody) :
    Except AppError UploadResponse × (String → List Doc) :=
  if body.type ≠ "FeatureCollection" then
    (.error ⟨none, "Body must be a valid GeoJSON FeatureCollection"⟩, db)
  else
    match body.features with
    | none => (.error ⟨none, "Body must be a valid GeoJSON FeatureCollection"⟩, db)
    | some features =>
      match rules ruleId with
      | none => (.error ⟨some 404, "Upload rule \x27" ++ ruleId ++ "\x27 not found"⟩, db)
      | some rule =>
        let targetCollection := "geo_" ++ rule.featureclass
        match mapFeatures rule.mapping features with
        | .error msg => (.error ⟨none, msg⟩, db)
        | .ok ops =>
          if ops.length = 0 then
            (.error ⟨none, "No valid features to insert"⟩, db)
          else
            let (coll, upserted, modified) := bulkUpsert (db targetCollection) ops
            (.ok ⟨targetCollection, upserted, modified⟩,
             fun n => if n = targetCollection then coll else db n)

/-- An IEEE-style signed value: a real magnitude together with the sign
bit of the double it idealises. The sign bit matters only for the two
zeros (+0 and -0), which the reals conflate but ECMAScript Math.atan2
distinguishes: atan2(-0, x) for x < 0 is -pi while atan2(+0, x) is pi.
For a nonzero value the bit agrees with the sign of the value. -/
structure SignedR where
  val : ℝ
  neg : Bool

/-- Inject a real as a signed value; a real zero carries the positive
sign bit (matching sin(+0) = +0 and the nonnegative-zero results of the
trigonometric calls in the handler). -/
noncomputable def SignedR.ofReal (r : ℝ) : SignedR :=
  open Classical in ⟨r, if r < 0 then true else false⟩

/-- IEEE multiplication: magnitudes multiply, sign bits xor - in
particular a negative times +0 is -0. -/
def SignedR.mul (a b : SignedR) : SignedR := ⟨a.val * b.val, a.neg != b.neg⟩

/-- The ECMAScript Math.atan2 on signed values: for a nonzero y it is
the argument of the complex number x + y i (range (-pi, pi], and +-pi/2
on the vertical axis); for a zero y the result is 0 when x is positive
(or +0) and +-pi - by the sign bit of y - when x is negative (or -0). -/
noncomputable def atan2s (y x : SignedR) : ℝ :=
  open Classical in
  if y.val = 0 then
    if x.val < 0 ∨ (x.val = 0 ∧ x.neg = true) then
      (if y.neg then -Real.pi else Real.pi)
    else 0
  else Complex.arg ⟨x.val, y.val⟩

/-- The coordinate normalizer of the query endpoint (src/index.js lines
227-233): run (lng0, lat0), given in degrees, through a unit Cartesian
vector and recover canonical angles, returned as (lng, lat) in degrees.
The two products feeding Math.atan2 are modelled as signed values so
that the IEEE negative zero produced by cos(phi) * sin(+0) for
cos(phi) < 0 is kept; trigonometric values themselves are exact reals. -/
noncomputable def normalizeDeg (lng0 lat0 : ℝ) : ℝ × ℝ :=
  (atan2s
      (SignedR.mul (SignedR.ofReal (Real.cos (Real.pi / 180 * lat0)))
        (SignedR.ofReal (Real.sin (Real.pi / 180 * lng0))))
      (SignedR.mul (SignedR.ofReal (Real.cos (Real.pi / 180 * lat0)))
        (SignedR.ofReal (Real.cos (Real.pi / 180 * lng0)))) * (180 / Real.pi),
   Real.arcsin (Real.sin (Real.pi / 180 * lat0)) * (180 / Real.pi))

/-- The effective radius (src/index.js line 206):
`parseFloat(req.query.radius) || Math.PI / 2`. The parse result is
`none` when the parameter is absent or not numeric (parseFloat gives
NaN, which is falsy); a parsed 0 is falsy as well. -/
noncomputable def effectiveRadius : Option ℝ → ℝ
  | none => Real.pi / 2
  | some r => if r = 0 then Real.pi / 2 else r

/-- The linear search radius in meters (src/index.js line 237). -/
noncomputable def radiusLinear (r : ℝ) : ℝ := 20000000 / Real.pi * r

/-- The zoom estimator (src/index.js line 240):
`Math.max(1, Math.floor(-Math.log2(radius / Math.PI)))`. -/
noncomputable def zoomOf (r : ℝ) : ℤ := max 1 ⌊-Real.logb 2 (r / Real.pi)⌋

/-- The simplification tolerance (src/index.js line 269). -/
noncomputable def simpTolerance (r : ℝ) : ℝ := 0.18 * r

/-- The zoom filter of the find query (src/index.js lines 252-255):
a document passes when its zoom field is absent, or numeric and at most
the estimated tier (the `$lte` comparison matches only numbers). -/
def zoomNoGreater (z : ℤ) (d : Doc) : Bool :=
  match getField d "zoom" with
  | none => true
  | some (.num q) => decide (q ≤ (z : ℚ))
  | some _ => false

/-- A feature of the query response: only a type tag and a geometry
(src/index.js lines 272-276). -/
structure RespFeature where
  type : String
  geometry : Option JVal
deriving DecidableEq, Repr

/-- The FeatureCollection body returned by the query endpoint. -/
structure FCResponse where
  type : String
  features : List RespFeature
deriving DecidableEq, Repr

/-- The proximity query endpoint GET /map/features/:featureclass
(src/index.js lines 202-290). `nearPred` is the external spatial-index
capability (given the normalized point and the linear radius, whether a
document matches `$near`); `simplifyExt` is the external simplification
capability (given the tolerance, the simplified feature, or `none` for
the falsy results dropped by `.filter(Boolean)`). The coordinate
parameters are parseFloat results, `none` standing for NaN. Note the
featureclass path parameter is used verbatim in the collection name,
with no validation. -/
noncomputable def getFeatures (nearPred : ℝ → ℝ → ℝ → Doc → Bool)
    (simplifyExt : ℝ → RespFeature → Option RespFeature)
    (db : String → List Doc) (featureclass : String)
    (lng? lat? : Option ℝ) (radius? : Option ℝ) :
    Except AppError FCResponse :=
  match lng?, lat? with
  | some lng0, some lat0 =>
    let radius := effectiveRadius radius?
    let p := normalizeDeg lng0 lat0
    let radiusM := radiusLinear radius
    let zoom := zoomOf radius
    let docs := (db ("geo_" ++ featureclass)).filter
      (fun d => zoomNoGreater zoom d && nearPred p.1 p.2 radiusM d)
    let tolerance := simpTolerance radius
    let features := docs.filterMap
      (fun d => simplifyExt tolerance ⟨"Feature", getField d "geometry"⟩)
    .ok ⟨"FeatureCollection", features⟩
  | _, _ => .error ⟨some 400, "Invalid coordinates"⟩

/-! Concrete fixtures used by witnesses and the end-to-end example of the
spec: the rule poi with mapping {_id: code, name: label}. -/

/-- A rule store holding one rule r1 -> {featureclass: poi,
mapping: {_id: code, name: label}}. -/
def sampleRules : RuleStore :=
  fun id => if id = "r1" then some ⟨"poi", [("_id", "code"), ("name", "label")]⟩ else none

/-- A database with every collection empty. -/
def emptyDb : String → List Doc := fun _ => []

/-- An opaque Point geometry value. -/
def pointGeom : JVal := .blob "Point [1, 2]"

/-- The feature of the end-to-end example: properties
{code: A1, label: Cafe} and a Point geometry. -/
def cafeFeature : Feature :=
  ⟨"Feature", some [("code", .str "A1"), ("label", .str "Cafe")], some pointGeom⟩

/-- A batch entry whose type tag is not Feature. -/
def badTypeFeature : Feature := ⟨"Oops", some [("code", .str "B1")], none⟩

/-- The upload body of the end-to-end example: a FeatureCollection with
the single cafe feature. -/
def sampleBody : UploadBody := ⟨"FeatureCollection", some [cafeFeature]⟩

/-! Helper lemmas about the zoom estimator. -/

lemma logb_two_quarter : Real.logb 2 (1 / 4 : ℝ) = -2 := by
  rw [one_div, Real.logb_inv, show (4 : ℝ) = 2 ^ (2 : ℕ) by norm_num, Real.logb_pow,
    Real.logb_self_eq_one one_lt_two]
  norm_num

lemma zoomOf_quarter : zoomOf (Real.pi / 4) = 2 := by
  unfold zoomOf
  have hπ := Real.pi_ne_zero
  have h : Real.pi / 4 / Real.pi = 1 / 4 := by
    field_simp
    ring
  rw [h, logb_two_quarter]
  norm_num

/-- C4: for every radius r > 0 the zoom tier equals
max(1, floor(-log2(r/pi))), zoomOf(pi) = 1, and the tier is monotonically
non-increasing in the radius. -/
theorem zoom_tier_formula_and_antitone :
    (∀ r : ℝ, 0 < r → zoomOf r = max 1 ⌊-Real.logb 2 (r / Real.pi)⌋) ∧
    zoomOf Real.pi = 1 ∧
    (∀ r₁ r₂ : ℝ, 0 < r₁ → r₁ ≤ r₂ → zoomOf r₂ ≤ zoomOf r₁) := by
  refine ⟨fun r _ => rfl, ?_, ?_⟩
  · unfold zoomOf
    rw [div_self Real.pi_ne_zero, Real.logb_one, neg_zero, Int.floor_zero]
    decide
  · intro r₁ r₂ h1 h12
    have hπ := Real.pi_pos
    have h1' : 0 < r₁ / Real.pi := by positivity
    have hdiv : r₁ / Real.pi ≤ r₂ / Real.pi := by gcongr
    have hle : Real.logb 2 (r₁ / Real.pi) ≤ Real.logb 2 (r₂ / Real.pi) :=
      Real.logb_le_logb_of_le one_lt_two h1' hdiv
    exact max_le_max le_rfl (Int.floor_le_floor (by linarith))

/-- Witness for C4 at concrete radii 1, pi and 2 pi. -/
theorem zoom_tier_formula_and_antitone_witness :
    zoomOf 1 = max 1 ⌊-Real.logb 2 (1 / Real.pi)⌋ ∧
    zoomOf (2 * Real.pi) ≤ zoomOf Real.pi :=
  ⟨zoom_tier_formula_and_antitone.1 1 one_pos,
   zoom_tier_formula_and_antitone.2.2 Real.pi (2 * Real.pi) Real.pi_pos
     (by nlinarith [Real.pi_pos])⟩

/-- C5 counterexample: the zoom estimator at radius pi/4 does not return
3; -log2((pi/4)/pi) = -log2(1/4) = 2, so the tier is max(1, 2) = 2. -/
theorem zoomOf_quarter_pi_ne_three : zoomOf (Real.pi / 4) ≠ 3 := by
  rw [zoomOf_quarter]
  decide

/-- C5 (amended): the zoom estimator applied to radius pi/4 returns 2. -/
theorem zoomOf_quarter_pi_eq_two : zoomOf (Real.pi / 4) = 2 :=
  zoomOf_quarter

/-- C8: the radius defaults to pi/2 when the radius parameter is absent
or non-numeric (both parse to NaN, modelled as `none`), the linear search
radius sent to the store is (20,000,000 / pi) * r, the simplification
tolerance is 0.18 * r, and at r = 0.1 the tolerance is 0.018. -/
theorem radius_default_and_scaling :
    effectiveRadius none = Real.pi / 2 ∧
    (∀ r : ℝ, radiusLinear r = 20000000 / Real.pi * r ∧ simpTolerance r = 0.18 * r) ∧
    simpTolerance 0.1 = 0.018 := by
  refine ⟨rfl, fun r => ⟨rfl, rfl⟩, ?_⟩
  unfold simpTolerance
  norm_num

/-! Helper lemmas about the signed values and the coordinate normalizer. -/

lemma SignedR.ofReal_val (r : ℝ) : (SignedR.ofReal r).val = r := rfl

lemma SignedR.ofReal_neg_of_nonneg {r : ℝ} (h : 0 ≤ r) :
    (SignedR.ofReal r).neg = false := by
  simp [SignedR.ofReal, not_lt.mpr h]

lemma SignedR.ofReal_neg_of_neg {r : ℝ} (h : r < 0) :
    (SignedR.ofReal r).neg = true := by
  simp [SignedR.ofReal, h]

lemma SignedR.mul_val (a b : SignedR) : (SignedR.mul a b).val = a.val * b.val := rfl

lemma atan2s_of_ne_zero {y x : SignedR} (h : y.val ≠ 0) :
    atan2s y x = Complex.arg ⟨x.val, y.val⟩ := by
  simp [atan2s, h]

lemma atan2s_zero_neg_x {y x : SignedR} (hy : y.val = 0) (hx : x.val < 0) :
    atan2s y x = (if y.neg then -Real.pi else Real.pi) := by
  unfold atan2s
  rw [if_pos hy, if_pos (Or.inl hx)]

lemma atan2s_zero_pos_x {y x : SignedR} (hy : y.val = 0) (hx : 0 < x.val) :
    atan2s y x = 0 := by
  unfold atan2s
  rw [if_pos hy, if_neg]
  rintro (h | ⟨h, _⟩) <;> linarith

lemma atan2s_mem_Icc (y x : SignedR) : atan2s y x ∈ Set.Icc (-Real.pi) Real.pi := by
  have hπ := Real.pi_pos
  unfold atan2s
  split_ifs with h1 h2 h3
  · constructor <;> linarith
  · constructor <;> linarith
  · constructor <;> linarith
  · have h := Complex.arg_mem_Ioc ⟨x.val, y.val⟩
    exact ⟨h.1.le, h.2⟩

lemma arg_mul_cos_sin {r θ : ℝ} (hr : 0 < r) (hθ : θ ∈ Set.Ioc (-Real.pi) Real.pi) :
    Complex.arg ⟨r * Real.cos θ, r * Real.sin θ⟩ = θ := by
  have h : (⟨r * Real.cos θ, r * Real.sin θ⟩ : ℂ)
      = (r : ℂ) * ((Real.cos θ : ℂ) + (Real.sin θ : ℂ) * Complex.I) := by
    apply Complex.ext <;> simp [Complex.cos_ofReal_re, Complex.sin_ofReal_re]
  rw [h, Complex.arg_real_mul _ hr, Complex.ofReal_cos, Complex.ofReal_sin,
    Complex.arg_cos_add_sin_mul_I hθ]

lemma sin_zero_cases {θ : ℝ} (hθ : θ ∈ Set.Ioc (-Real.pi) Real.pi)
    (hs : Real.sin θ = 0) : θ = 0 ∨ θ = Real.pi := by
  obtain ⟨n, hn⟩ := Real.sin_eq_zero_iff.mp hs
  have hπ := Real.pi_pos
  have h1 : -Real.pi < (n : ℝ) * Real.pi := by rw [hn]; exact hθ.1
  have h2 : (n : ℝ) * Real.pi ≤ Real.pi := by rw [hn]; exact hθ.2
  have hgt : (-1 : ℝ) < (n : ℝ) := by
    have := (mul_lt_mul_right hπ).mp (by linarith : (-1 : ℝ) * Real.pi < (n : ℝ) * Real.pi)
    exact this
  have hle : (n : ℝ) ≤ 1 := by
    have := (mul_le_mul_right hπ).mp (by linarith : (n : ℝ) * Real.pi ≤ 1 * Real.pi)
    exact this
  have hgt2 : (-1 : ℤ) < n := by exact_mod_cast hgt
  have hle2 : n ≤ (1 : ℤ) := by exact_mod_cast hle
  interval_cases n
  · left
    rw [← hn]
    norm_num
  · right
    rw [← hn]
    norm_num

lemma atan2s_cos_sin {c θ : ℝ} (hc : 0 < c) (hθ : θ ∈ Set.Ioc (-Real.pi) Real.pi) :
    atan2s (SignedR.mul (SignedR.ofReal c) (SignedR.ofReal (Real.sin θ)))
      (SignedR.mul (SignedR.ofReal c) (SignedR.ofReal (Real.cos θ))) = θ := by
  by_cases hs : Real.sin θ = 0
  · rcases sin_zero_cases hθ hs with rfl | rfl
    · rw [atan2s_zero_pos_x]
      · rw [SignedR.mul_val, SignedR.ofReal_val, SignedR.ofReal_val, Real.sin_zero, mul_zero]
      · rw [SignedR.mul_val, SignedR.ofReal_val, SignedR.ofReal_val, Real.cos_zero, mul_one]
        exact hc
    · rw [atan2s_zero_neg_x]
      · have hn : (SignedR.mul (SignedR.ofReal c)
            (SignedR.ofReal (Real.sin Real.pi))).neg = false := by
          show ((SignedR.ofReal c).neg != (SignedR.ofReal (Real.sin Real.pi)).neg) = false
          rw [SignedR.ofReal_neg_of_nonneg hc.le,
            SignedR.ofReal_neg_of_nonneg (le_of_eq Real.sin_pi.symm)]
          rfl
        rw [hn]
        rfl
      · rw [SignedR.mul_val, SignedR.ofReal_val, SignedR.ofReal_val, Real.sin_pi, mul_zero]
      · rw [SignedR.mul_val, SignedR.ofReal_val, SignedR.ofReal_val, Real.cos_pi]
        nlinarith
  · have hy : (SignedR.mul (SignedR.ofReal c) (SignedR.ofReal (Real.sin θ))).val ≠ 0 := by
      rw [SignedR.mul_val, SignedR.ofReal_val, SignedR.ofReal_val]
      exact mul_ne_zero hc.ne' hs
    rw [atan2s_of_ne_zero hy]
    exact arg_mul_cos_sin hc hθ

lemma normalizeDeg_lat_mem (lng0 lat0 : ℝ) :
    (normalizeDeg lng0 lat0).2 ∈ Set.Icc (-90 : ℝ) 90 := by
  have hπ := Real.pi_pos
  have hc : (0 : ℝ) < 180 / Real.pi := by positivity
  have h1 := Real.neg_pi_div_two_le_arcsin (Real.sin (Real.pi / 180 * lat0))
  have h2 := Real.arcsin_le_pi_div_two (Real.sin (Real.pi / 180 * lat0))
  have e1 : -(Real.pi / 2) * (180 / Real.pi) = -90 := by
    field_simp
    ring
  have e2 : Real.pi / 2 * (180 / Real.pi) = 90 := by
    field_simp
    ring
  constructor
  · calc (-90 : ℝ) = -(Real.pi / 2) * (180 / Real.pi) := e1.symm
      _ ≤ _ := mul_le_mul_of_nonneg_right h1 hc.le
  · calc (normalizeDeg lng0 lat0).2 ≤ Real.pi / 2 * (180 / Real.pi) :=
        mul_le_mul_of_nonneg_right h2 hc.le
      _ = 90 := e2

lemma normalizeDeg_lng_mem (lng0 lat0 : ℝ) :
    (normalizeDeg lng0 lat0).1 ∈ Set.Icc (-180 : ℝ) 180 := by
  have hπ := Real.pi_pos
  have hc : (0 : ℝ) < 180 / Real.pi := by positivity
  have h := atan2s_mem_Icc
    (SignedR.mul (SignedR.ofReal (Real.cos (Real.pi / 180 * lat0)))
      (SignedR.ofReal (Real.sin (Real.pi / 180 * lng0))))
    (SignedR.mul (SignedR.ofReal (Real.cos (Real.pi / 180 * lat0)))
      (SignedR.ofReal (Real.cos (Real.pi / 180 * lng0))))
  have e1 : -Real.pi * (180 / Real.pi) = -180 := by
    field_simp
    ring
  have e2 : Real.pi * (180 / Real.pi) = 180 := by
    field_simp
  constructor
  · calc (-180 : ℝ) = -Real.pi * (180 / Real.pi) := e1.symm
      _ ≤ _ := mul_le_mul_of_nonneg_right h.1 hc.le
  · calc (normalizeDeg lng0 lat0).1 ≤ Real.pi * (180 / Real.pi) :=
        mul_le_mul_of_nonneg_right h.2 hc.le
      _ = 180 := e2

lemma normalizeDeg_canonical_id (lng0 lat0 : ℝ) (hlng : lng0 ∈ Set.Ioc (-180 : ℝ) 180)
    (hlat : |lat0| < 90) :
    normalizeDeg lng0 lat0 = (lng0, lat0) := by
  have hπ := Real.pi_pos
  have hc : (0 : ℝ) < Real.pi / 180 := by positivity
  have habs := abs_lt.mp hlat
  have hphi1 : -(Real.pi / 2) < Real.pi / 180 * lat0 := by
    have := mul_lt_mul_of_pos_left habs.1 hc
    linarith
  have hphi2 : Real.pi / 180 * lat0 < Real.pi / 2 := by
    have := mul_lt_mul_of_pos_left habs.2 hc
    linarith
  have hlam1 : -Real.pi < Real.pi / 180 * lng0 := by
    have := mul_lt_mul_of_pos_left hlng.1 hc
    linarith
  have hlam2 : Real.pi / 180 * lng0 ≤ Real.pi := by
    have := mul_le_mul_of_nonneg_left hlng.2 hc.le
    linarith
  have hcos : 0 < Real.cos (Real.pi / 180 * lat0) :=
    Real.cos_pos_of_mem_Ioo ⟨hphi1, hphi2⟩
  have hlat_eq : (normalizeDeg lng0 lat0).2 = lat0 := by
    show Real.arcsin (Real.sin (Real.pi / 180 * lat0)) * (180 / Real.pi) = lat0
    rw [Real.arcsin_sin hphi1.le hphi2.le]
    field_simp
  have hlng_eq : (normalizeDeg lng0 lat0).1 = lng0 := by
    show atan2s
        (SignedR.mul (SignedR.ofReal (Real.cos (Real.pi / 180 * lat0)))
          (SignedR.ofReal (Real.sin (Real.pi / 180 * lng0))))
        (SignedR.mul (SignedR.ofReal (Real.cos (Real.pi / 180 * lat0)))
          (SignedR.ofReal (Real.cos (Real.pi / 180 * lng0)))) * (180 / Real.pi) = lng0
    rw [atan2s_cos_sin hcos ⟨hlam1, hlam2⟩]
    field_simp
  calc normalizeDeg lng0 lat0 = ((normalizeDeg lng0 lat0).1, (normalizeDeg lng0 lat0).2) := rfl
    _ = (lng0, lat0) := by rw [hlat_eq, hlng_eq]

lemma normalizeDeg_at_zero_hundred : normalizeDeg 0 100 = (-180, 80) := by
  have hπ := Real.pi_pos
  have hcos : Real.cos (Real.pi / 180 * 100) < 0 := by
    apply Real.cos_neg_of_pi_div_two_lt_of_lt <;> nlinarith
  have h0 : Real.pi / 180 * (0 : ℝ) = 0 := by ring
  have hfst : (normalizeDeg 0 100).1 = -180 := by
    show atan2s
        (SignedR.mul (SignedR.ofReal (Real.cos (Real.pi / 180 * 100)))
          (SignedR.ofReal (Real.sin (Real.pi / 180 * 0))))
        (SignedR.mul (SignedR.ofReal (Real.cos (Real.pi / 180 * 100)))
          (SignedR.ofReal (Real.cos (Real.pi / 180 * 0)))) * (180 / Real.pi) = -180
    rw [atan2s_zero_neg_x]
    · have hn : (SignedR.mul (SignedR.ofReal (Real.cos (Real.pi / 180 * 100)))
          (SignedR.ofReal (Real.sin (Real.pi / 180 * 0)))).neg = true := by
        show ((SignedR.ofReal (Real.cos (Real.pi / 180 * 100))).neg
            != (SignedR.ofReal (Real.sin (Real.pi / 180 * 0))).neg) = true
        rw [SignedR.ofReal_neg_of_neg hcos,
          SignedR.ofReal_neg_of_nonneg (by rw [h0, Real.sin_zero])]
        rfl
      rw [hn]
      field_simp
      ring
    · rw [SignedR.mul_val, SignedR.ofReal_val, SignedR.ofReal_val, h0, Real.sin_zero,
        mul_zero]
    · rw [SignedR.mul_val, SignedR.ofReal_val, SignedR.ofReal_val, h0, Real.cos_zero,
        mul_one]
      exact hcos
  have hsnd : (normalizeDeg 0 100).2 = 80 := by
    show Real.arcsin (Real.sin (Real.pi / 180 * 100)) * (180 / Real.pi) = 80
    have hphi : Real.pi / 180 * (100 : ℝ) = Real.pi - 4 * Real.pi / 9 := by ring
    rw [hphi, Real.sin_pi_sub, Real.arcsin_sin (by nlinarith) (by nlinarith)]
    field_simp
    ring
  calc normalizeDeg 0 100 = ((normalizeDeg 0 100).1, (normalizeDeg 0 100).2) := rfl
    _ = (-180, 80) := by rw [hfst, hsnd]

/-- C3 counterexample: the finite raw input (lng, lat) = (0, 100) is
normalized to longitude exactly -180, which lies outside the claimed
range (-180, 180]: the handler computes y = cos(phi) * sin(+0), an IEEE
negative zero since cos(phi) < 0, and Math.atan2(-0, x) for x < 0
returns -pi. -/
theorem normalize_output_escapes_claimed_range :
    (normalizeDeg 0 100).1 = -180 ∧
    (normalizeDeg 0 100).1 ∉ Set.Ioc (-180 : ℝ) 180 := by
  have h : (normalizeDeg 0 100).1 = -180 := by rw [normalizeDeg_at_zero_hundred]
  refine ⟨h, ?_⟩
  rw [h, Set.mem_Ioc]
  simp

/-- C3 (amended): for every finite raw pair the normalized latitude lies
in [-90, 90] and the normalized longitude in the closed range
[-180, 180]; the endpoint -180 is attained (for example at raw input
(0, 100), where the y fed to atan2 is an IEEE negative zero and x is
negative). For inputs already canonical with latitude strictly inside
(-90, 90), the output equals the input, exactly in this idealisation of
the float arithmetic - realising the identity up to floating-point
tolerance. (At the exact poles the identity additionally rests on cos of
the pole double rounding to a nonzero value, a rounding fact outside
this exact-trigonometry model.) -/
theorem normalize_range_and_identity :
    ∀ lng0 lat0 : ℝ,
      ((normalizeDeg lng0 lat0).2 ∈ Set.Icc (-90 : ℝ) 90 ∧
        (normalizeDeg lng0 lat0).1 ∈ Set.Icc (-180 : ℝ) 180) ∧
      (lng0 ∈ Set.Ioc (-180 : ℝ) 180 → |lat0| < 90 →
        normalizeDeg lng0 lat0 = (lng0, lat0)) :=
  fun lng0 lat0 =>
    ⟨⟨normalizeDeg_lat_mem lng0 lat0, normalizeDeg_lng_mem lng0 lat0⟩,
     fun hlng hlat => normalizeDeg_canonical_id lng0 lat0 hlng hlat⟩

/-- Witness for C3 at the canonical input (30, 45). -/
theorem normalize_range_and_identity_witness :
    normalizeDeg 30 45 = (30, 45) :=
  (normalize_range_and_identity 30 45).2 (by norm_num)
    (by rw [abs_lt]; constructor <;> norm_num)

/-- C9 counterexample: at input (lng, lat) = (0, 100) the normalized
longitude is exactly -180, not 180 as claimed: y = cos(phi) * sin(+0) is
an IEEE negative zero (cos(phi) < 0), and Math.atan2(-0, x) for x < 0 is
-pi by the ECMAScript specification, 360 degrees away from the claimed
+180. The latitude does reflect to 80 as claimed. -/
theorem normalize_pole_shift_returns_minus_180 :
    (normalizeDeg 0 100).1 = -180 ∧ (normalizeDeg 0 100).1 ≠ 180 ∧
    (normalizeDeg 0 100).2 = 80 := by
  rw [normalizeDeg_at_zero_hundred]
  norm_num

/-- C9 (amended): normalization reflects the over-the-pole latitude 100
across the pole to 80 and moves the longitude to the antimeridian, which
it returns as -180: normalize(0, 100) = (lng, lat) = (-180, 80). -/
theorem normalize_reflects_over_pole_signed :
    normalizeDeg 0 100 = (-180, 80) :=
  normalizeDeg_at_zero_hundred

/-! Helper lemmas about documents and the mapping engine. -/

lemma getField_setField_same : ∀ (d : Doc) (k : String) (v : Option JVal),
    getField (setField d k v) k = v := by
  intro d k v
  induction d with
  | nil => simp [setField, getField]
  | cons kv rest ih =>
    obtain ⟨k', v'⟩ := kv
    by_cases h : k' = k
    · subst h
      simp [setField, getField]
    · simp [setField, getField, h, ih]

lemma getField_setField_other (d : Doc) {k k' : String} (v : Option JVal) (h : k' ≠ k) :
    getField (setField d k v) k' = getField d k' := by
  have hkk : k ≠ k' := fun he => h he.symm
  induction d with
  | nil => simp [setField, getField, hkk]
  | cons kv rest ih =>
    obtain ⟨a, b⟩ := kv
    by_cases ha : a = k
    · subst ha
      simp [setField, getField, hkk]
    · simp only [setField, if_neg ha, getField]
      by_cases ha' : a = k'
      · simp [ha']
      · simp [ha', ih]

lemma applyMapping_error_of_falsy_id {f : Feature} :
    ∀ (m : List (String × String)) (d : Doc),
    (∃ src, ("_id", src) ∈ m ∧ falsyOpt (getProp f src) = true) →
    applyMapping f m d = .error "Feature missing _id value from mapping" := by
  intro m
  induction m with
  | nil =>
    rintro d ⟨src, hmem, _⟩
    simp at hmem
  | cons hd tl ih =>
    rintro d ⟨src, hmem, hfal⟩
    obtain ⟨t, s⟩ := hd
    rcases List.mem_cons.mp hmem with heq | htl
    · obtain ⟨ht, hs⟩ := Prod.mk.injEq .. ▸ heq
      subst hs
      simp [applyMapping, ← ht, hfal]
    · by_cases ht : t = "_id"
      · subst ht
        by_cases hf : falsyOpt (getProp f s)
        · simp [applyMapping, hf]
        · simp [applyMapping, hf]
          exact ih _ ⟨src, htl, hfal⟩
      · simp [applyMapping, ht]
        exact ih _ ⟨src, htl, hfal⟩

lemma applyMapping_ok_of_truthy_ids {f : Feature} :
    ∀ (m : List (String × String)) (d : Doc),
    (∀ src, ("_id", src) ∈ m → falsyOpt (getProp f src) = false) →
    ∃ d', applyMapping f m d = .ok d' := by
  intro m
  induction m with
  | nil => exact fun d _ => ⟨d, rfl⟩
  | cons hd tl ih =>
    intro d h
    obtain ⟨t, s⟩ := hd
    by_cases ht : t = "_id"
    · subst ht
      have hf : falsyOpt (getProp f s) = false := h s (List.mem_cons_self _ _)
      obtain ⟨d', hd'⟩ := ih (setField d "_id" (getProp f s))
        (fun src hsrc => h src (List.mem_cons_of_mem _ hsrc))
      exact ⟨d', by simp [applyMapping, hf, hd']⟩
    · obtain ⟨d', hd'⟩ := ih (setField d t (getProp f s))
        (fun src hsrc => h src (List.mem_cons_of_mem _ hsrc))
      exact ⟨d', by simp [applyMapping, ht, hd']⟩

lemma applyMapping_preserves {f : Feature} :
    ∀ (m : List (String × String)) (d d' : Doc) (k : String),
    k ∉ m.map Prod.fst →
    applyMapping f m d = .ok d' →
    getField d' k = getField d k := by
  intro m
  induction m with
  | nil =>
    intro d d' k _ h
    cases h
    rfl
  | cons hd tl ih =>
    intro d d' k hk h
    obtain ⟨t, s⟩ := hd
    have hkt : k ≠ t := fun he => hk (by simp [he])
    have hktl : k ∉ tl.map Prod.fst := fun he => hk (by simp [he])
    by_cases ht : t = "_id"
    · subst ht
      by_cases hf : falsyOpt (getProp f s)
      · simp [applyMapping, hf] at h
      · simp only [applyMapping, if_pos rfl, hf, Bool.false_eq_true, if_false,
          if_neg] at h
        rw [ih _ _ _ hktl h, getField_setField_other _ _ hkt]
    · simp only [applyMapping, if_neg ht] at h
      rw [ih _ _ _ hktl h, getField_setField_other _ _ hkt]

lemma applyMapping_assigns {f : Feature} :
    ∀ (m : List (String × String)) (d d' : Doc) (t s : String),
    (m.map Prod.fst).Nodup →
    applyMapping f m d = .ok d' →
    (t, s) ∈ m → t ≠ "_id" →
    getField d' t = getProp f s := by
  intro m
  induction m with
  | nil =>
    intro d d' t s _ _ hmem
    simp at hmem
  | cons hd tl ih =>
    intro d d' t s hnd h hmem hid
    obtain ⟨t₀, s₀⟩ := hd
    have hnd' : t₀ ∉ tl.map Prod.fst ∧ (tl.map Prod.fst).Nodup := by
      rw [List.map_cons, List.nodup_cons] at hnd
      exact hnd
    rcases List.mem_cons.mp hmem with heq | htl
    · obtain ⟨ht, hs⟩ := Prod.mk.injEq .. ▸ heq
      subst ht
      subst hs
      simp only [applyMapping, if_neg hid] at h
      rw [applyMapping_preserves tl _ _ _ hnd'.1 h, getField_setField_same]
    · by_cases ht : t₀ = "_id"
      · subst ht
        by_cases hf : falsyOpt (getProp f s₀)
        · simp [applyMapping, hf] at h
        · simp only [applyMapping, if_pos rfl, hf, Bool.false_eq_true, if_false,
            if_neg] at h
          exact ih _ _ _ _ hnd'.2 h htl hid
      · simp only [applyMapping, if_neg ht] at h
        exact ih _ _ _ _ hnd'.2 h htl hid

lemma mapFeature_ok_of_good {m : List (String × String)} {f : Feature}
    (ht : f.type = "Feature")
    (hid : ∀ src, ("_id", src) ∈ m → falsyOpt (getProp f src) = false) :
    ∃ d, mapFeature m f = .ok d := by
  obtain ⟨d₀, h₀⟩ := applyMapping_ok_of_truthy_ids m [] hid
  exact ⟨setField d₀ "geometry" f.geometry, by simp [mapFeature, ht, h₀, Except.map]⟩

lemma mapFeature_ok_fields {m : List (String × String)} {f : Feature} {d : Doc}
    (hnd : (m.map Prod.fst).Nodup) (h : mapFeature m f = .ok d) :
    (∀ t s, (t, s) ∈ m → t ≠ "_id" → t ≠ "geometry" → getField d t = getProp f s) ∧
    getField d "geometry" = f.geometry := by
  by_cases ht : f.type = "Feature"
  · simp only [mapFeature, ht, ne_eq, not_true_eq_false, if_false] at h
    cases happly : applyMapping f m [] with
    | error e =>
      rw [happly] at h
      simp [Except.map] at h
    | ok d₀ =>
      rw [happly] at h
      simp only [Except.map] at h
      cases h
      constructor
      · intro t s hmem hid hgeo
        rw [getField_setField_other _ _ hgeo]
        exact applyMapping_assigns m _ _ _ _ hnd happly hmem hid
      · rw [getField_setField_same]
  · simp [mapFeature, ht] at h

lemma mapFeature_error_of_bad {m : List (String × String)} {f : Feature}
    (h : f.type ≠ "Feature" ∨
      ∃ src, ("_id", src) ∈ m ∧ falsyOpt (getProp f src) = true) :
    ∃ msg, mapFeature m f = .error msg := by
  by_cases ht : f.type = "Feature"
  · rcases h with hty | hid
    · exact absurd ht hty
    · refine ⟨"Feature missing _id value from mapping", ?_⟩
      simp [mapFeature, ht, applyMapping_error_of_falsy_id m [] hid, Except.map]
  · exact ⟨"All items must be GeoJSON Features", by simp [mapFeature, ht]⟩

lemma mapFeatures_error {m : List (String × String)} :
    ∀ (l : List Feature),
    (∃ f ∈ l, ∃ msg, mapFeature m f = .error msg) →
    ∃ msg, mapFeatures m l = .error msg := by
  intro l
  induction l with
  | nil =>
    rintro ⟨f, hmem, _⟩
    simp at hmem
  | cons f0 tl ih =>
    rintro ⟨f, hmem, msg, hmsg⟩
    cases hf0 : mapFeature m f0 with
    | error e =>
      refine ⟨e, ?_⟩
      simp only [mapFeatures, hf0]
      rfl
    | ok d0 =>
      rcases List.mem_cons.mp hmem with heq | htl
      · subst heq
        rw [hf0] at hmsg
        cases hmsg
      · obtain ⟨msg', hmsg'⟩ := ih ⟨f, htl, msg, hmsg⟩
        refine ⟨msg', ?_⟩
        simp only [mapFeatures, hf0, hmsg']
        rfl

lemma ingest_error_of_map_error {rules : RuleStore} {db : String → List Doc}
    {ruleId : String} {body : UploadBody} {rule : Rule} {features : List Feature}
    (hr : rules ruleId = some rule)
    (htype : body.type = "FeatureCollection")
    (hfeat : body.features = some features)
    (hbad : ∃ f ∈ features, ∃ msg, mapFeature rule.mapping f = .error msg) :
    ∃ msg, ingest rules db ruleId body = (.error ⟨none, msg⟩, db) := by
  obtain ⟨msg, hmsg⟩ := mapFeatures_error features hbad
  exact ⟨msg, by simp [ingest, htype, hfeat, hr, hmsg]⟩

/-- C1: when the upload body is a well-formed FeatureCollection and the
rule exists, but some feature of the batch fails mapping validation (its
type is not Feature, or its mapped _id source property resolves to a
falsy value), the whole batch is aborted: the call returns an error and
the database is unchanged, so in particular the stored document count of
collection geo_<featureclass> is unchanged. -/
theorem ingest_aborts_batch_on_mapping_failure :
    ∀ (rules : RuleStore) (db : String → List Doc) (ruleId : String)
      (body : UploadBody) (rule : Rule) (features : List Feature),
    rules ruleId = some rule →
    body.type = "FeatureCollection" →
    body.features = some features →
    (∃ f ∈ features, f.type ≠ "Feature" ∨
      ∃ src, ("_id", src) ∈ rule.mapping ∧ falsyOpt (getProp f src) = true) →
    (∃ e, ingest rules db ruleId body = (.error e, db)) ∧
    ((ingest rules db ruleId body).2 ("geo_" ++ rule.featureclass)).length
      = (db ("geo_" ++ rule.featureclass)).length := by
  rintro rules db ruleId body rule features hr ht hf ⟨f, hmem, hbad⟩
  obtain ⟨msg, h⟩ := ingest_error_of_map_error hr ht hf
    ⟨f, hmem, mapFeature_error_of_bad hbad⟩
  exact ⟨⟨⟨none, msg⟩, h⟩, by rw [h]⟩

/-- Witness for C1: a batch containing a non-Feature entry under the
sample rule leaves the empty database untouched. -/
theorem ingest_aborts_batch_on_mapping_failure_witness :
    (∃ e, ingest sampleRules emptyDb "r1" ⟨"FeatureCollection", some [badTypeFeature]⟩
        = (.error e, emptyDb)) ∧
    ((ingest sampleRules emptyDb "r1" ⟨"FeatureCollection", some [badTypeFeature]⟩).2
        ("geo_" ++ "poi")).length
      = (emptyDb ("geo_" ++ "poi")).length :=
  ingest_aborts_batch_on_mapping_failure sampleRules emptyDb "r1"
    ⟨"FeatureCollection", some [badTypeFeature]⟩
    ⟨"poi", [("_id", "code"), ("name", "label")]⟩ [badTypeFeature]
    (by decide) rfl rfl
    ⟨badTypeFeature, by decide, Or.inl (by decide)⟩

/-- C6: the mapping engine assigns feature.properties[sourceProperty]
verbatim to each non-_id target field (an absent source property is not
an error and yields an absent attribute - the first conjunct shows the
engine succeeds whenever the type tag is Feature and every mapped _id
source resolves to a truthy value, regardless of the other properties),
and then copies the geometry onto the output document unconditionally,
overwriting any mapped field named geometry; end to end, under rule
{featureclass: poi, mapping: {_id: code, name: label}}, uploading one
feature with properties {code: A1, label: Cafe} and a Point geometry
stores exactly the document {_id: A1, name: Cafe, geometry: <the Point>}. -/
theorem mapping_engine_verbatim_and_e2e :
    (∀ (m : List (String × String)) (f : Feature),
      f.type = "Feature" →
      (∀ src, ("_id", src) ∈ m → falsyOpt (getProp f src) = false) →
      ∃ d, mapFeature m f = .ok d) ∧
    (∀ (m : List (String × String)) (f : Feature) (d : Doc),
      (m.map Prod.fst).Nodup →
      mapFeature m f = .ok d →
      (∀ t s, (t, s) ∈ m → t ≠ "_id" → t ≠ "geometry" → getField d t = getProp f s) ∧
      getField d "geometry" = f.geometry) ∧
    ((ingest sampleRules emptyDb "r1" sampleBody).1 = .ok ⟨"geo_poi", 1, 0⟩ ∧
      (ingest sampleRules emptyDb "r1" sampleBody).2 "geo_poi"
        = [[("_id", some (.str "A1")), ("name", some (.str "Cafe")),
            ("geometry", some pointGeom)]]) :=
  ⟨fun _ _ ht hid => mapFeature_ok_of_good ht hid,
   fun _ _ _ hnd h => mapFeature_ok_fields hnd h,
   by decide, by decide⟩

/-- Witness for C6: the verbatim property evaluated on the concrete cafe
feature under the sample mapping. -/
theorem mapping_engine_verbatim_and_e2e_witness :
    getField [("_id", some (JVal.str "A1")), ("name", some (JVal.str "Cafe")),
        ("geometry", some pointGeom)] "geometry" = cafeFeature.geometry :=
  (mapping_engine_verbatim_and_e2e.2.1 [("_id", "code"), ("name", "label")] cafeFeature
      [("_id", some (JVal.str "A1")), ("name", some (JVal.str "Cafe")),
        ("geometry", some pointGeom)]
      (by decide) (by decide)).2

lemma isWordString_ne_empty {s : String} (h : isWordString s = true) : s ≠ "" := by
  intro he
  subst he
  exact absurd h (by decide)

/-- C7: putRule fails - returning an error before any write, the store
being untouched since no new store is produced - whenever the
featureclass does not match the word pattern [A-Za-z0-9_]+ or the
mapping is not an object containing an _id entry; otherwise it succeeds
and upserts exactly one record keyed by the rule id: that record becomes
exactly the new rule, fully replacing any previous rule under the same
id, and every other id is left unchanged. -/
theorem putRule_validates_and_replaces :
    (∀ (store : RuleStore) (ruleId : String) (fc? : Option String)
        (m? : Option (List (String × String))),
      ((fc? = none ∨ ∃ fc, fc? = some fc ∧ isWordString fc = false) ∨
        m? = none ∨ (∃ m, m? = some m ∧ ∀ s, ("_id", s) ∉ m)) →
      ∃ e, putRule store ruleId fc? m? = .error e) ∧
    (∀ (store : RuleStore) (ruleId : String) (fc : String)
        (m : List (String × String)),
      isWordString fc = true → (∃ s, ("_id", s) ∈ m) →
      ∃ store' resp, putRule store ruleId (some fc) (some m) = .ok (store', resp) ∧
        store' ruleId = some ⟨fc, m⟩ ∧
        ∀ id, id ≠ ruleId → store' id = store id) := by
  constructor
  · rintro store ruleId fc? m? ((rfl | ⟨fc, rfl, hfc⟩) | rfl | ⟨m, rfl, hm⟩)
    · exact ⟨_, rfl⟩
    · by_cases he : fc = ""
      · subst he
        exact ⟨_, rfl⟩
      · exact ⟨⟨none, "featureclass must be alphanumerical"⟩, by simp [putRule, he, hfc]⟩
    · rcases fc? with _ | fc
      · exact ⟨_, rfl⟩
      · by_cases he : fc = ""
        · subst he
          exact ⟨_, rfl⟩
        · by_cases hw : isWordString fc
          · exact ⟨⟨none, "mapping must be an object"⟩, by simp [putRule, he, hw]⟩
          · exact ⟨⟨none, "featureclass must be alphanumerical"⟩, by simp [putRule, he, hw]⟩
    · rcases fc? with _ | fc
      · exact ⟨_, rfl⟩
      · by_cases he : fc = ""
        · subst he
          exact ⟨_, rfl⟩
        · by_cases hw : isWordString fc
          · have hany : m.any (fun kv => kv.1 == "_id") = false := by
              rw [List.any_eq_false]
              rintro ⟨a, b⟩ hmem
              simp only [beq_iff_eq]
              intro ha
              exact hm b (by rw [← ha]; exact hmem)
            exact ⟨⟨none, "mapping must contain _id"⟩, by simp [putRule, he, hw, hany]⟩
          · exact ⟨⟨none, "featureclass must be alphanumerical"⟩, by simp [putRule, he, hw]⟩
  · rintro store ruleId fc m hw ⟨s, hs⟩
    have hany : m.any (fun kv => kv.1 == "_id") = true :=
      List.any_eq_true.mpr ⟨("_id", s), hs, by simp⟩
    refine ⟨fun id => if id = ruleId then some ⟨fc, m⟩ else store id,
      (match store ruleId with
        | none => ⟨1, 0⟩
        | some old => ⟨0, if old = (⟨fc, m⟩ : Rule) then 0 else 1⟩ : PutRuleResponse),
      ?_, ?_, ?_⟩
    · simp [putRule, isWordString_ne_empty hw, hw, hany]
    · simp
    · intro id hid
      simp [hid]

/-- Witness for C7: replacing a different pre-existing rule under id r1
yields exactly the new rule there and leaves other ids unchanged. -/
theorem putRule_validates_and_replaces_witness :
    ∃ store' resp,
      putRule (fun _ => some ⟨"old", [("x", "y")]⟩) "r1" (some "poi")
          (some [("_id", "code")]) = .ok (store', resp) ∧
      store' "r1" = some ⟨"poi", [("_id", "code")]⟩ ∧
      ∀ id, id ≠ "r1" → store' id = (fun _ => some (⟨"old", [("x", "y")]⟩ : Rule)) id :=
  putRule_validates_and_replaces.2 (fun _ => some ⟨"old", [("x", "y")]⟩) "r1" "poi"
    [("_id", "code")] (by decide) ⟨"code", by decide⟩

/-- C2 counterexample: a malformed mapping (rule body without a mapping
object) is thrown as a plain Error with no status attached, so the error
middleware surfaces it with HTTP status 500 - not an HTTP 400
equivalent - although the body is { error: <message> } as claimed. -/
theorem validation_error_surfaces_500_not_400 :
    putRule (fun _ => none) "r1" (some "poi") none
      = .error ⟨none, "mapping must be an object"⟩ ∧
    (errorResponse ⟨none, "mapping must be an object"⟩).1 = 500 ∧
    (errorResponse ⟨none, "mapping must be an object"⟩).1 ≠ 400 := by
  refine ⟨rfl, rfl, by decide⟩

/-- C2 (amended): every listed ValidationError - malformed or absent
featureclass, malformed mapping, mapping without _id, a body that is not
a FeatureCollection, a non-Feature entry, a missing _id value, an empty
operation batch - is thrown without an explicit status and is surfaced
to the client with HTTP status 500 (the middleware default) and body
{ error: <message> }. -/
theorem validation_errors_surface_as_500 :
    (∀ (store : RuleStore) (ruleId : String) (m? : Option (List (String × String))),
      putRule store ruleId none m? = .error ⟨none, "featureclass is required"⟩) ∧
    (∀ (store : RuleStore) (ruleId fc : String) (m? : Option (List (String × String))),
      fc ≠ "" → isWordString fc = false →
      putRule store ruleId (some fc) m?
        = .error ⟨none, "featureclass must be alphanumerical"⟩) ∧
    (∀ (store : RuleStore) (ruleId fc : String),
      isWordString fc = true →
      putRule store ruleId (some fc) none = .error ⟨none, "mapping must be an object"⟩) ∧
    (∀ (store : RuleStore) (ruleId fc : String) (m : List (String × String)),
      isWordString fc = true → (∀ s, ("_id", s) ∉ m) →
      putRule store ruleId (some fc) (some m)
        = .error ⟨none, "mapping must contain _id"⟩) ∧
    (∀ (rules : RuleStore) (db : String → List Doc) (ruleId : String)
        (body : UploadBody),
      body.type ≠ "FeatureCollection" ∨ body.features = none →
      ingest rules db ruleId body
        = (.error ⟨none, "Body must be a valid GeoJSON FeatureCollection"⟩, db)) ∧
    (∀ (rules : RuleStore) (db : String → List Doc) (ruleId : String)
        (body : UploadBody) (rule : Rule) (features : List Feature),
      rules ruleId = some rule → body.type = "FeatureCollection" →
      body.features = some features →
      (∃ f ∈ features, f.type ≠ "Feature" ∨
        ∃ src, ("_id", src) ∈ rule.mapping ∧ falsyOpt (getProp f src) = true) →
      ∃ msg, ingest rules db ruleId body = (.error ⟨none, msg⟩, db)) ∧
    (∀ (rules : RuleStore) (db : String → List Doc) (ruleId : String)
        (body : UploadBody) (rule : Rule),
      rules ruleId = some rule → body.type = "FeatureCollection" →
      body.features = some [] →
      ingest rules db ruleId body = (.error ⟨none, "No valid features to insert"⟩, db)) ∧
    (∀ msg : String, msg ≠ "" → errorResponse ⟨none, msg⟩ = (500, ⟨msg⟩)) := by
  refine ⟨fun _ _ _ => rfl, ?_, ?_, ?_, ?_, ?_, ?_, ?_⟩
  · intro store ruleId fc m? h1 h2
    simp [putRule, h1, h2]
  · intro store ruleId fc h
    simp [putRule, isWordString_ne_empty h, h]
  · intro store ruleId fc m hw hm
    have hany : m.any (fun kv => kv.1 == "_id") = false := by
      rw [List.any_eq_false]
      rintro ⟨a, b⟩ hmem
      simp only [beq_iff_eq]
      intro ha
      exact hm b (by rw [← ha]; exact hmem)
    simp [putRule, isWordString_ne_empty hw, hw, hany]
  · intro rules db ruleId body h
    rcases h with hty | hfe
    · simp [ingest, hty]
    · by_cases hty : body.type = "FeatureCollection"
      · simp [ingest, hty, hfe]
      · simp [ingest, hty]
  · rintro rules db ruleId body rule features hr ht hf ⟨f, hmem, hbad⟩
    exact ingest_error_of_map_error hr ht hf ⟨f, hmem, mapFeature_error_of_bad hbad⟩
  · intro rules db ruleId body rule hr ht hf
    simp [ingest, ht, hf, hr, mapFeatures]
  · intro msg h
    simp [errorResponse, h]

/-- Witness for C2 at concrete inputs: a non-word featureclass fails and
the failure surfaces as status 500 with the message in the error body. -/
theorem validation_errors_surface_as_500_witness :
    putRule (fun _ => none) "r9" (some "bad fc") none
      = .error ⟨none, "featureclass must be alphanumerical"⟩ ∧
    errorResponse ⟨none, "featureclass must be alphanumerical"⟩
      = (500, ⟨"featureclass must be alphanumerical"⟩) :=
  ⟨validation_errors_surface_as_500.2.1 (fun _ => none) "r9" "bad fc" none
      (by decide) (by decide),
   validation_errors_surface_as_500.2.2.2.2.2.2.2 "featureclass must be alphanumerical"
      (by decide)⟩

/-- C10: the proximity query endpoint validates only the coordinates, not
the featureclass: for every featureclass string (word-shaped or not,
known or not) the query returns ok, the response depends only on the
contents of collection geo_<featureclass>, and an empty collection
yields the empty FeatureCollection rather than an error. -/
theorem query_accepts_any_featureclass :
    ∀ (nearPred : ℝ → ℝ → ℝ → Doc → Bool)
      (simplifyExt : ℝ → RespFeature → Option RespFeature)
      (db db2 : String → List Doc) (fc : String) (lng0 lat0 : ℝ)
      (radius? : Option ℝ),
    (∃ fcr, getFeatures nearPred simplifyExt db fc (some lng0) (some lat0) radius?
        = .ok fcr) ∧
    (db ("geo_" ++ fc) = db2 ("geo_" ++ fc) →
      getFeatures nearPred simplifyExt db fc (some lng0) (some lat0) radius?
        = getFeatures nearPred simplifyExt db2 fc (some lng0) (some lat0) radius?) ∧
    (db ("geo_" ++ fc) = [] →
      getFeatures nearPred simplifyExt db fc (some lng0) (some lat0) radius?
        = .ok ⟨"FeatureCollection", []⟩) := by
  intro nearPred simplifyExt db db2 fc lng0 lat0 radius?
  refine ⟨⟨_, rfl⟩, fun h => ?_, fun h => ?_⟩
  · simp only [getFeatures, h]
  · simp only [getFeatures, h, List.filter_nil, List.filterMap_nil]

/-- Witness for C10: a featureclass that matches no rule and no word
pattern, over an empty database, yields the empty FeatureCollection. -/
theorem query_accepts_any_featureclass_witness :
    getFeatures (fun _ _ _ _ => true) (fun _ f => some f) (fun _ => [])
        "no such class!" (some 0) (some 0) none
      = .ok ⟨"FeatureCollection", []⟩ :=
  (query_accepts_any_featureclass (fun _ _ _ _ => true) (fun _ f => some f)
      (fun _ => []) (fun _ => []) "no such class!" 0 0 none).2.2 rfl

end SadistMap
